import Mathlib

/-!
Verification of the crossfire-grafana-go HTTP facade.

The repository is a small Gin web server that queries the Firestore REST API
and reshapes the results for Grafana.  This file shallowly embeds:

* the JSON value universe Go's encoding/json decodes into interface values
  (objects, arrays, strings, numbers, booleans, null),
* Go map indexing and type assertions (a failed type assertion panics in Go;
  here it is an Option returning none),
* the document-processing loops of the /latest-orders and
  /dead-letters-specific handlers (internal/handlers/handlers.go),
* the three fetch functions of internal/services (pagination loop,
  runQuery fetches), with the external world (token provider, HTTP
  transport, response decoding) supplied as an explicit environment, and
  the requests actually issued recorded as a trace,
* the route table of internal/routes/router.go.
-/

namespace Crossfire

/-- JSON values as decoded by Go's encoding/json into an interface value:
objects become maps from strings, arrays become slices, strings stay strings,
booleans stay booleans, absent/null becomes the nil interface.  Go decodes
numbers to float64; the numeric payload is irrelevant to every property
proved here, so it is carried as an integer. -/
inductive JSON where
  | null : JSON
  | str : String → JSON
  | num : Int → JSON
  | bool : Bool → JSON
  | arr : List JSON → JSON
  | obj : List (String × JSON) → JSON

/-- Go map indexing m[k] on a decoded JSON object: the value when the key is
present, the nil interface (JSON.null) when absent.  Decoded Go maps have
unique keys, so first-match lookup is faithful. -/
def mapIndex (m : List (String × JSON)) (k : String) : JSON :=
  match m.find? (fun p => p.1 == k) with
  | some p => p.2
  | none => JSON.null

/-- Go two-result map lookup `v, ok := m[k]`: some v when the key is present
(ok true), none when absent (ok false). -/
def mapLookup (m : List (String × JSON)) (k : String) : Option JSON :=
  (m.find? (fun p => p.1 == k)).map Prod.snd

/-- Go type assertion x.(map[string]interface) on a decoded JSON value.
none models the runtime panic of a failed assertion. -/
def asObj : JSON → Option (List (String × JSON))
  | JSON.obj m => some m
  | _ => none

/-- Go type assertion x.(string); none models the panic. -/
def asStr : JSON → Option String
  | JSON.str s => some s
  | _ => none

/-- Go type assertion x.([]interface); none models the panic. -/
def asArr : JSON → Option (List JSON)
  | JSON.arr xs => some xs
  | _ => none

/-- FirestoreDocument of internal/services/firestore.go: Name and a Fields
map.  fields = none models a nil Go map (the decoder leaves Fields nil when
the response item has no "fields" object, e.g. the readTime-only trailing
entries of a runQuery response). -/
structure FirestoreDocument where
  name : String
  fields : Option (List (String × JSON))

/-- Serialization of a Fields map back to JSON: a nil map serializes as
null, otherwise as the object. -/
def fieldsToJSON : Option (List (String × JSON)) → JSON
  | none => JSON.null
  | some m => JSON.obj m

/-- Serialization of a FirestoreDocument back to JSON (used when handlers
echo fetched documents). -/
def docToJSON (doc : FirestoreDocument) : JSON :=
  JSON.obj [("name", JSON.str doc.name), ("fields", fieldsToJSON doc.fields)]

/-- One guarded extraction of LatestOrdersHandler:
`if f, ok := fields[k]; ok, then v = f.(map).eIndex "stringValue" asserted to
string, else v stays the empty string`.  Indexing a nil Fields map behaves
like the empty map. -/
def extractStringField (fields : Option (List (String × JSON))) (k : String) :
    Option String :=
  match mapLookup (fields.getD []) k with
  | none => some ""
  | some v => (asObj v).bind fun m => asStr (mapIndex m "stringValue")

/-- The per-document body of the /latest-orders processing loop
(LatestOrdersHandler): extract orderNumber, createdAt, datePosted, build
combinedField, and emit the output map with keys name, fields,
combinedField in the source's literal order.  none models a panic. -/
def processLatestOrdersDoc (subCollectionID : String) (doc : FirestoreDocument) :
    Option (List (String × JSON)) := do
  let orderNumber ← extractStringField doc.fields "orderNumber"
  let createdAt ← extractStringField doc.fields "createdAt"
  let datePosted ← extractStringField doc.fields "datePosted"
  let combinedField :=
    subCollectionID ++ " - " ++ orderNumber ++ " - " ++ createdAt ++ " - " ++ datePosted
  pure [("name", JSON.str doc.name), ("fields", fieldsToJSON doc.fields),
        ("combinedField", JSON.str combinedField)]

/-- The /latest-orders processing loop over the fetched documents, in order;
a panic on any document aborts the whole handler (none). -/
def processLatestOrders (subCollectionID : String) :
    List FirestoreDocument → Option (List (List (String × JSON)))
  | [] => some []
  | doc :: rest => do
    let entry ← processLatestOrdersDoc subCollectionID doc
    let others ← processLatestOrders subCollectionID rest
    pure (entry :: others)

/-- The chain v.(map)["mapValue"].(map)["fields"].(map) that
DeadLettersHandler applies to mapValue wrappers. -/
def unwrapMapValueFields (v : JSON) : Option (List (String × JSON)) := do
  let m ← asObj v
  let mv ← asObj (mapIndex m "mapValue")
  asObj (mapIndex mv "fields")

/-- The chain v.(map)["stringValue"].(string) that DeadLettersHandler
applies to stringValue wrappers. -/
def unwrapStringValue (v : JSON) : Option String := do
  let m ← asObj v
  asStr (mapIndex m "stringValue")

/-- The per-storeOrder body of the inner /dead-letters-specific loop.
The Go source evaluates the identical pure chain
orderFields["BillTo"].(map)["mapValue"].(map)["fields"].(map) three times
(for State, StoreCode, Suburb); it is hoisted once here, which yields the
same value and the same panic behaviour.  The emitted map carries the keys
combinedField, name, fields in the source's literal order. -/
def processStoreOrder (entryName : JSON) (fields originalPayload : List (String × JSON))
    (storeOrder : JSON) : Option (List (String × JSON)) := do
  let orderFields ← unwrapMapValueFields storeOrder
  let orderNumber ← unwrapStringValue (mapIndex originalPayload "OrderNumber")
  let billToFields ← unwrapMapValueFields (mapIndex orderFields "BillTo")
  let state ← unwrapStringValue (mapIndex billToFields "State")
  let storeCode ← unwrapStringValue (mapIndex billToFields "StoreCode")
  let suburb ← unwrapStringValue (mapIndex billToFields "Suburb")
  let errorMessage ← unwrapStringValue (mapIndex fields "errorMessage")
  let combinedField :=
    orderNumber ++ " - " ++ state ++ " - " ++ storeCode ++ " - " ++ suburb ++ " - " ++ errorMessage
  pure [("combinedField", JSON.str combinedField), ("name", entryName),
        ("fields", JSON.obj fields)]

/-- The inner /dead-letters-specific loop over storeOrders, in order. -/
def processStoreOrders (entryName : JSON) (fields originalPayload : List (String × JSON)) :
    List JSON → Option (List (List (String × JSON)))
  | [] => some []
  | so :: rest => do
    let out ← processStoreOrder entryName fields originalPayload so
    let outs ← processStoreOrders entryName fields originalPayload rest
    pure (out :: outs)

/-- The per-document body of the /dead-letters-specific processing loop:
unwrap fields, originalPayload and StoreOrders, then run the inner loop.
The input entry is one element of FetchSpecificDocumentsFromFirestore's
result (a map with keys name, fields, subCategory). -/
def processDeadLetterEntry (entry : List (String × JSON)) :
    Option (List (List (String × JSON))) := do
  let fields ← asObj (mapIndex entry "fields")
  let originalPayload ← unwrapMapValueFields (mapIndex fields "originalPayload")
  let soWrap ← asObj (mapIndex originalPayload "StoreOrders")
  let soArrWrap ← asObj (mapIndex soWrap "arrayValue")
  let storeOrders ← asArr (mapIndex soArrWrap "values")
  processStoreOrders (mapIndex entry "name") fields originalPayload storeOrders

/-- The /dead-letters-specific processing loop over the fetched entries, in
order, flattening the per-entry output lists as the Go append does. -/
def processDeadLetters : List (List (String × JSON)) → Option (List (List (String × JSON)))
  | [] => some []
  | entry :: rest => do
    let outs ← processDeadLetterEntry entry
    let more ← processDeadLetters rest
    pure (outs ++ more)

/-! ## Network model

The token provider, the HTTP transport and the JSON decoder are external
collaborators.  Each fetch function is parametrized by an explicit
environment describing what those collaborators do, and returns the list of
HTTP requests it actually hands to the transport together with its Go return
value. -/

/-- An HTTP request as handed to http.DefaultClient.Do; bearer is the value
attached as the Authorization Bearer header. -/
structure IssuedRequest where
  method : String
  url : String
  bearer : String
  body : String

/-- Outcome of one http.DefaultClient.Do call together with the subsequent
status check and body decode: transport failure, non-200 status, decode
failure, or a decoded value. -/
inductive DoOutcome (α : Type) where
  | transportError (msg : String)
  | httpError (status : String)
  | decodeError (msg : String)
  | ok (a : α)

/-- The environment of one fetch interaction: the http.NewRequest outcome,
the GetFirestoreAccessToken outcome, and the transport/decode outcome. -/
structure Interaction (α : Type) where
  build : Except String Unit
  token : Except String String
  response : DoOutcome α

/-- An interaction in which everything succeeds. -/
def okInteraction (tok : String) (a : α) : Interaction α :=
  { build := Except.ok (), token := Except.ok tok, response := DoOutcome.ok a }

/-- One decoded page of the paginated restaurants fetch: the documents array
and the nextPageToken ("" when the JSON field is absent, Go's zero value). -/
structure Page where
  documents : List FirestoreDocument
  nextPageToken : String

/-- The documents URL built by FetchDocumentsFromFirestore. -/
def documentsURL (projectID databaseID collection : String) : String :=
  "https://firestore.googleapis.com/v1/projects/" ++ projectID ++ "/databases/" ++
    databaseID ++ "/documents/" ++ collection

/-- The runQuery URL built by the two runQuery fetch functions. -/
def runQueryURL (projectID databaseID : String) : String :=
  "https://firestore.googleapis.com/v1/projects/" ++ projectID ++ "/databases/" ++
    databaseID ++ "/documents:runQuery"

/-- The structuredQuery payload built by the two runQuery fetch functions:
it interpolates only the subCollection argument. -/
def runQueryPayload (subCollection : String) : String :=
  "\x7b\n        \"structuredQuery\": \x7b\n            \"from\": [\x7b\"collectionId\": \"" ++
    subCollection ++ "\", \"allDescendants\": true\x7d]\n        \x7d\n    \x7d"

/-- The pagination loop of FetchDocumentsFromFirestore
(internal/services/firestore.go).  Per iteration, in source order: build the
request URL (appending pageToken when a token is carried over), call
GetFirestoreAccessToken, http.NewRequest, http.DefaultClient.Do, check the
status, decode, append the page's documents, and stop when nextPageToken is
empty.  fuel bounds the number of iterations the model unrolls; none means
the fuel ran out (the Go loop would still be running). -/
def fetchDocsLoop (env : Nat → Interaction Page) (url : String) :
    Nat → Nat → String → List FirestoreDocument →
    Option (List IssuedRequest × Except String (List FirestoreDocument))
  | 0, _, _, _ => none
  | fuel + 1, i, nextPageToken, acc =>
    let requestURL := if nextPageToken = "" then url else url ++ "?pageToken=" ++ nextPageToken
    match (env i).token with
    | Except.error e => some ([], Except.error ("failed to get access token: " ++ e))
    | Except.ok tok =>
      match (env i).build with
      | Except.error e => some ([], Except.error ("failed to create request: " ++ e))
      | Except.ok _ =>
        let req : IssuedRequest :=
          { method := "GET", url := requestURL, bearer := tok, body := "" }
        match (env i).response with
        | DoOutcome.transportError e =>
            some ([req], Except.error ("failed to make request: " ++ e))
        | DoOutcome.httpError st =>
            some ([req], Except.error ("firestore API returned error: " ++ st))
        | DoOutcome.decodeError e =>
            some ([req], Except.error ("failed to parse response: " ++ e))
        | DoOutcome.ok page =>
          if page.nextPageToken = "" then
            some ([req], Except.ok (acc ++ page.documents))
          else
            match fetchDocsLoop env url fuel (i + 1) page.nextPageToken (acc ++ page.documents) with
            | none => none
            | some (reqs, res) => some (req :: reqs, res)

/-- FetchDocumentsFromFirestore (internal/services/firestore.go): the
paginated restaurants fetch, starting with no page token and an empty
accumulator. -/
def FetchDocumentsFromFirestore (env : Nat → Interaction Page) (fuel : Nat)
    (projectID databaseID collection : String) :
    Option (List IssuedRequest × Except String (List FirestoreDocument)) :=
  fetchDocsLoop env (documentsURL projectID databaseID collection) fuel 0 "" []

/-- FetchDocumentsFromFirestoreWithSubcollection
(internal/services/firestore.go): a single runQuery POST.  In source order:
http.NewRequest first, then GetFirestoreAccessToken, then Do / status check
/ decode.  The decoded list of result items is flattened to the contained
documents (an item without a "document" key decodes to the zero
FirestoreDocument). -/
def FetchDocumentsFromFirestoreWithSubcollection
    (env : Interaction (List FirestoreDocument))
    (projectID databaseID subCollection : String) :
    List IssuedRequest × Except String (List FirestoreDocument) :=
  let url := runQueryURL projectID databaseID
  let payload := runQueryPayload subCollection
  match env.build with
  | Except.error e => ([], Except.error ("failed to create request: " ++ e))
  | Except.ok _ =>
    match env.token with
    | Except.error e => ([], Except.error ("failed to get access token: " ++ e))
    | Except.ok tok =>
      let req : IssuedRequest := { method := "POST", url := url, bearer := tok, body := payload }
      match env.response with
      | DoOutcome.transportError e => ([req], Except.error ("failed to make request: " ++ e))
      | DoOutcome.httpError st => ([req], Except.error ("Firestore API returned error: " ++ st))
      | DoOutcome.decodeError e => ([req], Except.error ("failed to parse response: " ++ e))
      | DoOutcome.ok documents => ([req], Except.ok documents)

/-- The result-building loop of FetchSpecificDocumentsFromFirestore: keep
only decoded documents whose Fields map is non-nil, and wrap each as a map
with keys name, fields, subCategory (subCategory = the subCollection
argument), preserving order. -/
def specificDocuments (subCollection : String) :
    List FirestoreDocument → List (List (String × JSON))
  | [] => []
  | doc :: rest =>
    match doc.fields with
    | some fl =>
        [("name", JSON.str doc.name), ("fields", JSON.obj fl),
         ("subCategory", JSON.str subCollection)] :: specificDocuments subCollection rest
    | none => specificDocuments subCollection rest

/-- FetchSpecificDocumentsFromFirestore (internal/services/firestore.go): a
single runQuery POST; the parentCollection parameter appears in the Go
signature but is never used in the body, exactly as in the source. -/
def FetchSpecificDocumentsFromFirestore
    (env : Interaction (List FirestoreDocument))
    (projectID databaseID parentCollection subCollection : String) :
    List IssuedRequest × Except String (List (List (String × JSON))) :=
  let url := runQueryURL projectID databaseID
  let payload := runQueryPayload subCollection
  match env.build with
  | Except.error e => ([], Except.error ("failed to create request: " ++ e))
  | Except.ok _ =>
    match env.token with
    | Except.error e => ([], Except.error ("failed to get access token: " ++ e))
    | Except.ok tok =>
      let req : IssuedRequest := { method := "POST", url := url, bearer := tok, body := payload }
      match env.response with
      | DoOutcome.transportError e => ([req], Except.error ("failed to make request: " ++ e))
      | DoOutcome.httpError st => ([req], Except.error ("Firestore API returned error: " ++ st))
      | DoOutcome.decodeError e => ([req], Except.error ("failed to parse response: " ++ e))
      | DoOutcome.ok items => ([req], Except.ok (specificDocuments subCollection items))

/-! ## Handlers and routes -/

/-- An HTTP reply sent with c.JSON(status, body). -/
structure HttpReply where
  status : Nat
  body : JSON

/-- HomeHandler: the base route replies 200 and issues no requests. -/
def HomeHandler : List IssuedRequest × HttpReply :=
  ([], ⟨200, JSON.obj [("message", JSON.str "Server is running")]⟩)

/-- RestaurantsCacheHandler: fetch the restaurants collection (paginated);
500 with the error message on failure, 200 with the echoed documents on
success.  none means the fuel of the model ran out mid-pagination. -/
def RestaurantsCacheHandler (env : Nat → Interaction Page) (fuel : Nat)
    (projectID databaseID : String) : Option (List IssuedRequest × HttpReply) :=
  match FetchDocumentsFromFirestore env fuel projectID databaseID "restaurants" with
  | none => none
  | some (reqs, Except.error e) =>
      some (reqs, ⟨500, JSON.obj [("error", JSON.str e)]⟩)
  | some (reqs, Except.ok documents) =>
      some (reqs, ⟨200, JSON.obj
        [("message", JSON.str "Documents fetched successfully from restaurants"),
         ("documents", JSON.arr (documents.map docToJSON))]⟩)

/-- LatestOrdersHandler (internal/handlers/handlers.go).  c.Query returns
the empty string both when the subCollection parameter is absent and when it
is present but empty, so the parameter is modelled as a plain string.  The
reply is none when document processing hits an unhandled runtime failure
(Go panic). -/
def LatestOrdersHandler (env : Interaction (List FirestoreDocument))
    (projectID databaseID subCollectionID : String) :
    List IssuedRequest × Option HttpReply :=
  if subCollectionID = "" then
    ([], some ⟨400, JSON.obj [("error", JSON.str "subCollection query parameter is required")]⟩)
  else
    match FetchDocumentsFromFirestoreWithSubcollection env projectID databaseID subCollectionID with
    | (reqs, Except.error e) => (reqs, some ⟨500, JSON.obj [("error", JSON.str e)]⟩)
    | (reqs, Except.ok documents) =>
      match processLatestOrders subCollectionID documents with
      | none => (reqs, none)
      | some processed =>
          (reqs, some ⟨200, JSON.obj
            [("message", JSON.str "Documents fetched successfully"),
             ("documents", JSON.arr (processed.map JSON.obj))]⟩)

/-- DeadLettersHandler (internal/handlers/handlers.go), with the hard-coded
parent path of the source. -/
def DeadLettersHandler (env : Interaction (List FirestoreDocument))
    (projectID databaseID subCollection : String) :
    List IssuedRequest × Option HttpReply :=
  let parentCollection := "dead-letters/NANALL"
  if subCollection = "" then
    ([], some ⟨400, JSON.obj [("error", JSON.str "subCollection query parameter is required")]⟩)
  else
    match FetchSpecificDocumentsFromFirestore env projectID databaseID parentCollection subCollection with
    | (reqs, Except.error e) => (reqs, some ⟨500, JSON.obj [("error", JSON.str e)]⟩)
    | (reqs, Except.ok documents) =>
      match processDeadLetters documents with
      | none => (reqs, none)
      | some processed =>
          (reqs, some ⟨200, JSON.obj
            [("message", JSON.str "Documents fetched successfully"),
             ("documents", JSON.arr (processed.map JSON.obj))]⟩)

/-- The route registration table of SetupRouter
(internal/routes/router.go): the (HTTP method, path) pairs registered on
the Gin engine, in registration order. -/
def SetupRouter : List (String × String) :=
  [("GET", "/"), ("GET", "/restaurants-cache"), ("GET", "/latest-orders"),
   ("GET", "/dead-letters-specific")]

/-! ## Claim-side predicates and concrete fixtures -/

/-- The three field keys the /latest-orders processing extracts. -/
def latestOrdersKeys : List String := ["orderNumber", "createdAt", "datePosted"]

/-- A field key whose value the /latest-orders extraction can unwrap without
a runtime failure: the key is absent, or it holds a map wrapper containing a
string-typed stringValue. -/
def wellShapedKey (fields : Option (List (String × JSON))) (k : String) : Prop :=
  mapLookup (fields.getD []) k = none ∨
  ∃ m s, mapLookup (fields.getD []) k = some (JSON.obj m) ∧ mapIndex m "stringValue" = JSON.str s

/-- The claim's extraction relation for the display field, following its
words: v is the stringValue extracted from the document's fields when the
key is present and the empty string when the key is absent. -/
def specExtracted (fields : Option (List (String × JSON))) (k v : String) : Prop :=
  (mapLookup (fields.getD []) k = none ∧ v = "") ∨
  ∃ m, mapLookup (fields.getD []) k = some (JSON.obj m) ∧ mapIndex m "stringValue" = JSON.str v

/-- Classifies a failing interaction of the pagination loop: the error
message FetchDocumentsFromFirestore returns when the loop meets it, and the
number of requests the failing iteration hands to the transport (0 when the
token fetch or the request construction fails, 1 when the failure happens
at or after http.DefaultClient.Do).  none when the interaction succeeds. -/
def failureResult (it : Interaction α) : Option (String × Nat) :=
  match it.token with
  | Except.error e => some ("failed to get access token: " ++ e, 0)
  | Except.ok _ =>
    match it.build with
    | Except.error e => some ("failed to create request: " ++ e, 0)
    | Except.ok _ =>
      match it.response with
      | DoOutcome.transportError e => some ("failed to make request: " ++ e, 1)
      | DoOutcome.httpError st => some ("firestore API returned error: " ++ st, 1)
      | DoOutcome.decodeError e => some ("failed to parse response: " ++ e, 1)
      | DoOutcome.ok _ => none

/-- Fixture: a restaurants document with fields. -/
def docR1 : FirestoreDocument := ⟨"restaurants/r1", some [("a", JSON.str "1")]⟩

/-- Fixture: a decoded result item whose document has a nil Fields map. -/
def docR2 : FirestoreDocument := ⟨"restaurants/r2", none⟩

/-- Fixture: a first response page carrying a nextPageToken. -/
def pageW1 : Page := ⟨[docR1], "tkn1"⟩

/-- Fixture: a final response page with an empty nextPageToken. -/
def pageW2 : Page := ⟨[docR2], ""⟩

/-- Fixture: an environment answering the pagination loop with pageW1 then
pageW2, every interaction succeeding with the same token. -/
def envPagesW : Nat → Interaction Page := fun i =>
  okInteraction "tokW" (if i = 0 then pageW1 else pageW2)

/-- Fixture: an environment whose second pagination interaction fails at the
transport. -/
def envPagesFailW : Nat → Interaction Page := fun i =>
  if i = 0 then okInteraction "tokW" pageW1
  else { build := Except.ok (), token := Except.ok "tokW",
         response := DoOutcome.transportError "EOF" }

/-- Fixture: a latest-orders document with a well-shaped orderNumber
wrapper, a well-shaped datePosted wrapper and no createdAt key. -/
def docOrderW : FirestoreDocument :=
  ⟨"latest-orders/I001/o1",
   some [("orderNumber", JSON.obj [("stringValue", JSON.str "ON1")]),
         ("datePosted", JSON.obj [("stringValue", JSON.str "DP1")])]⟩

/-- Fixture: a runQuery environment returning docOrderW. -/
def envOrdersW : Interaction (List FirestoreDocument) := okInteraction "tokW" [docOrderW]

/-- Fixture: a runQuery environment returning one document with fields and
one with a nil Fields map. -/
def envSpecW : Interaction (List FirestoreDocument) := okInteraction "tokW" [docR1, docR2]

/-- Fixture: a runQuery environment whose token acquisition fails. -/
def envTokenFailW : Interaction (List FirestoreDocument) :=
  { build := Except.ok (), token := Except.error "no creds", response := DoOutcome.ok [] }

/-- Fixture: a runQuery environment answering with a non-200 status. -/
def envHttpFailW : Interaction (List FirestoreDocument) :=
  { build := Except.ok (), token := Except.ok "tokW",
    response := DoOutcome.httpError "403 Forbidden" }

/-- Fixture: the fields map of a well-formed dead-letters document with one
store order. -/
def deadLetterFieldsW : List (String × JSON) :=
  [("errorMessage", JSON.obj [("stringValue", JSON.str "boom")]),
   ("originalPayload", JSON.obj [("mapValue", JSON.obj [("fields", JSON.obj
     [("OrderNumber", JSON.obj [("stringValue", JSON.str "ON9")]),
      ("StoreOrders", JSON.obj [("arrayValue", JSON.obj [("values", JSON.arr
        [JSON.obj [("mapValue", JSON.obj [("fields", JSON.obj
          [("BillTo", JSON.obj [("mapValue", JSON.obj [("fields", JSON.obj
            [("State", JSON.obj [("stringValue", JSON.str "NSW")]),
             ("StoreCode", JSON.obj [("stringValue", JSON.str "S01")]),
             ("Suburb", JSON.obj [("stringValue", JSON.str "Sydney")])])])])])])]])])])])])])]

/-- Fixture: a well-formed dead-letters entry as
FetchSpecificDocumentsFromFirestore would build it. -/
def deadLetterEntryW : List (String × JSON) :=
  [("name", JSON.str "dead-letters/NANALL/2024-12-16/d1"),
   ("fields", JSON.obj deadLetterFieldsW),
   ("subCategory", JSON.str "2024-12-16")]

/-- Fixture: the output entry the dead-letters processing emits for
deadLetterEntryW. -/
def deadLetterOutW : List (String × JSON) :=
  [("combinedField", JSON.str "ON9 - NSW - S01 - Sydney - boom"),
   ("name", JSON.str "dead-letters/NANALL/2024-12-16/d1"),
   ("fields", JSON.obj deadLetterFieldsW)]

/-- Fixture: the request the runQuery fetch issues under envOrdersW. -/
def reqW : IssuedRequest :=
  ⟨"POST", runQueryURL "p" "d", "tokW", runQueryPayload "I001"⟩

/-! ## Helper lemmas -/

/-- Inversion for the map type assertion. -/
theorem asObj_inv {v : JSON} {m : List (String × JSON)} (h : asObj v = some m) :
    v = JSON.obj m := by
  cases v <;> simp_all [asObj]

/-- Inversion for the string type assertion. -/
theorem asStr_inv {v : JSON} {s : String} (h : asStr v = some s) : v = JSON.str s := by
  cases v <;> simp_all [asStr]

/-- A successful guarded extraction satisfies the claim's extraction
relation. -/
theorem extractStringField_spec {fields : Option (List (String × JSON))} {k v : String}
    (h : extractStringField fields k = some v) : specExtracted fields k v := by
  unfold extractStringField at h
  cases hm : mapLookup (fields.getD []) k with
  | none =>
      simp only [hm, Option.some_inj] at h
      exact Or.inl ⟨hm, h.symm⟩
  | some j =>
      simp only [hm] at h
      rcases hb : asObj j with _ | m
      · simp [hb] at h
      · simp only [hb, Option.some_bind] at h
        have hj := asObj_inv hb
        have hs := asStr_inv h
        refine Or.inr ⟨m, ?_, hs⟩
        rw [hm, hj]

/-- A well-shaped key always extracts. -/
theorem extractStringField_isSome {fields : Option (List (String × JSON))} {k : String}
    (h : wellShapedKey fields k) : (extractStringField fields k).isSome := by
  rcases h with h | ⟨m, s, hm, hs⟩
  · simp [extractStringField, h]
  · simp [extractStringField, hm, asObj, hs, asStr]

/-- Characterization of a successful per-document /latest-orders step. -/
theorem processLatestOrdersDoc_eq {sub : String} {doc : FirestoreDocument}
    {out : List (String × JSON)}
    (h : processLatestOrdersDoc sub doc = some out) :
    ∃ o c dp, extractStringField doc.fields "orderNumber" = some o ∧
      extractStringField doc.fields "createdAt" = some c ∧
      extractStringField doc.fields "datePosted" = some dp ∧
      out = [("name", JSON.str doc.name), ("fields", fieldsToJSON doc.fields),
             ("combinedField",
              JSON.str (sub ++ " - " ++ o ++ " - " ++ c ++ " - " ++ dp))] := by
  simp only [processLatestOrdersDoc, Option.bind_eq_bind, Option.bind_eq_some,
    Option.pure_def, Option.some_inj] at h
  obtain ⟨o, ho, c, hc, dp, hdp, hout⟩ := h
  exact ⟨o, c, dp, ho, hc, hdp, hout.symm⟩

/-- A well-shaped document processes without a runtime failure. -/
theorem processLatestOrdersDoc_isSome {sub : String} {doc : FirestoreDocument}
    (h : ∀ k ∈ latestOrdersKeys, wellShapedKey doc.fields k) :
    (processLatestOrdersDoc sub doc).isSome := by
  obtain ⟨o, ho⟩ := Option.isSome_iff_exists.mp
    (extractStringField_isSome (h "orderNumber" (by simp [latestOrdersKeys])))
  obtain ⟨c, hc⟩ := Option.isSome_iff_exists.mp
    (extractStringField_isSome (h "createdAt" (by simp [latestOrdersKeys])))
  obtain ⟨dp, hdp⟩ := Option.isSome_iff_exists.mp
    (extractStringField_isSome (h "datePosted" (by simp [latestOrdersKeys])))
  simp [processLatestOrdersDoc, ho, hc, hdp]

/-- Every output entry of the /latest-orders loop comes from a fetched
document that processed successfully. -/
theorem processLatestOrders_mem {sub : String} :
    ∀ {docs : List FirestoreDocument} {outs : List (List (String × JSON))},
      processLatestOrders sub docs = some outs →
      ∀ out ∈ outs, ∃ doc ∈ docs, processLatestOrdersDoc sub doc = some out := by
  intro docs
  induction docs with
  | nil =>
      intro outs h out hm
      simp only [processLatestOrders, Option.some_inj] at h
      subst h
      simp at hm
  | cons doc rest ih =>
      intro outs h out hm
      simp only [processLatestOrders, Option.bind_eq_bind, Option.bind_eq_some,
        Option.pure_def, Option.some_inj] at h
      obtain ⟨e, he, os, hos, houts⟩ := h
      subst houts
      rcases List.mem_cons.mp hm with rfl | hm2
      · exact ⟨doc, List.mem_cons_self doc rest, he⟩
      · obtain ⟨d, hd, hde⟩ := ih hos out hm2
        exact ⟨d, List.mem_cons_of_mem doc hd, hde⟩

/-! ## C1 -/

/-- C1 counterexample: the unwrapping is not defensive.  In /latest-orders a
present orderNumber key holding a bare string (not a stringValue wrapper
map) makes the type assertion fail at runtime (modelled as none), and in
/dead-letters-specific an entry whose fields lack originalPayload makes the
nested map assertion fail. -/
theorem c1_unwrap_not_defensive_counterexample :
    processLatestOrders "I001"
        [⟨"latest-orders/I001/o1", some [("orderNumber", JSON.str "X")]⟩] = none ∧
    processDeadLetters
        [[("name", JSON.str "dead-letters/NANALL/2024-12-16/d1"),
          ("fields", JSON.obj []), ("subCategory", JSON.str "2024-12-16")]] = none := by
  exact ⟨rfl, rfl⟩

/-- C1 (amended): the extraction of /latest-orders is defensive only
against absent keys — processing completes without a runtime failure for
every fetched document whose orderNumber, createdAt and datePosted keys are
each absent or wrapped as a map with a string-typed stringValue; a present
key of any other shape (and a missing or differently wrapped field along
the /dead-letters-specific traversal) hits an unhandled type-assertion
failure. -/
theorem c1_unwrap_defensive_amended {sub : String} {docs : List FirestoreDocument}
    (h : ∀ doc ∈ docs, ∀ k ∈ latestOrdersKeys, wellShapedKey doc.fields k) :
    (processLatestOrders sub docs).isSome := by
  induction docs with
  | nil => simp [processLatestOrders]
  | cons doc rest ih =>
      obtain ⟨e, he⟩ := Option.isSome_iff_exists.mp
        (@processLatestOrdersDoc_isSome sub doc (h doc (List.mem_cons_self doc rest)))
      obtain ⟨os, hos⟩ := Option.isSome_iff_exists.mp
        (ih (fun d hd k hk => h d (List.mem_cons_of_mem doc hd) k hk))
      simp [processLatestOrders, he, hos]

/-- C1 amended witness: a concrete document with one well-shaped wrapper,
one absent key and one well-shaped wrapper processes successfully. -/
theorem c1_unwrap_defensive_amended_witness :
    (processLatestOrders "I001" [docOrderW]).isSome := by
  apply c1_unwrap_defensive_amended
  intro doc hd k hk
  simp only [List.mem_singleton] at hd
  subst hd
  simp only [latestOrdersKeys, List.mem_cons, List.mem_singleton] at hk
  rcases hk with rfl | rfl | rfl | hk
  · exact Or.inr ⟨[("stringValue", JSON.str "ON1")], "ON1", rfl, rfl⟩
  · exact Or.inl rfl
  · exact Or.inr ⟨[("stringValue", JSON.str "DP1")], "DP1", rfl, rfl⟩
  · simp at hk

/-! ## C9 -/

/-- C9: a request to /latest-orders or /dead-letters-specific whose
subCollection query parameter is absent or empty (c.Query yields the empty
string in both cases) is answered with HTTP 400 and the error body, and no
Firestore fetch is performed (no request is issued). -/
theorem c9_missing_subcollection_400 :
    ∀ (env : Interaction (List FirestoreDocument)) (projectID databaseID : String),
      LatestOrdersHandler env projectID databaseID "" =
        ([], some ⟨400, JSON.obj
          [("error", JSON.str "subCollection query parameter is required")]⟩) ∧
      DeadLettersHandler env projectID databaseID "" =
        ([], some ⟨400, JSON.obj
          [("error", JSON.str "subCollection query parameter is required")]⟩) := by
  intro env projectID databaseID
  exact ⟨rfl, rfl⟩

/-! ## C5 -/

/-- C5: FetchSpecificDocumentsFromFirestore never reads its
parentCollection argument — for identical environment and remaining
arguments the whole result (requests issued and return value) is equal for
any two parentCollection values, and every request it issues targets the
runQuery URL with the payload built from subCollection alone, so the
hard-coded parent path of DeadLettersHandler never influences the query. -/
theorem c5_parent_collection_unused :
    ∀ (env : Interaction (List FirestoreDocument)) (p d pc1 pc2 s : String),
      FetchSpecificDocumentsFromFirestore env p d pc1 s =
        FetchSpecificDocumentsFromFirestore env p d pc2 s ∧
      ∀ req ∈ (FetchSpecificDocumentsFromFirestore env p d pc1 s).1,
        req.method = "POST" ∧ req.url = runQueryURL p d ∧ req.body = runQueryPayload s := by
  intro env p d pc1 pc2 s
  refine ⟨rfl, ?_⟩
  intro req hreq
  rcases env with ⟨b, t, r⟩
  cases b with
  | error e => simp [FetchSpecificDocumentsFromFirestore] at hreq
  | ok u =>
    cases t with
    | error e => simp [FetchSpecificDocumentsFromFirestore] at hreq
    | ok tok =>
      cases r <;> simp [FetchSpecificDocumentsFromFirestore] at hreq <;>
        (subst hreq; exact ⟨rfl, rfl, rfl⟩)

/-- C5 witness: with a concrete environment the hard-coded parent path and
a different one give the same result. -/
theorem c5_parent_collection_unused_witness :
    FetchSpecificDocumentsFromFirestore envSpecW "p" "d" "dead-letters/NANALL" "2024-12-16" =
      FetchSpecificDocumentsFromFirestore envSpecW "p" "d" "another-parent" "2024-12-16" :=
  (c5_parent_collection_unused envSpecW "p" "d" "dead-letters/NANALL" "another-parent"
    "2024-12-16").1

/-! ## C3 -/

/-- C3: every document returned for /latest-orders carries a combinedField
equal to subCollectionID - orderNumber - createdAt - datePosted (joined
with " - "), where each of the three values is the stringValue extracted
from the document's fields when the key is present and the empty string
when the key is absent. -/
theorem c3_combined_field {sub : String} {docs : List FirestoreDocument}
    {outs : List (List (String × JSON))}
    (h : processLatestOrders sub docs = some outs) :
    ∀ out ∈ outs, ∃ doc ∈ docs, ∃ o c dp,
      specExtracted doc.fields "orderNumber" o ∧
      specExtracted doc.fields "createdAt" c ∧
      specExtracted doc.fields "datePosted" dp ∧
      mapIndex out "combinedField" =
        JSON.str (sub ++ " - " ++ o ++ " - " ++ c ++ " - " ++ dp) := by
  intro out hm
  obtain ⟨doc, hdoc, hde⟩ := processLatestOrders_mem h out hm
  obtain ⟨o, c, dp, ho, hc, hdp, hout⟩ := processLatestOrdersDoc_eq hde
  subst hout
  exact ⟨doc, hdoc, o, c, dp, extractStringField_spec ho, extractStringField_spec hc,
    extractStringField_spec hdp, rfl⟩

/-- C3 witness: the concrete document docOrderW yields the expected
combinedField with an empty createdAt component. -/
theorem c3_combined_field_witness :
    ∃ doc ∈ [docOrderW], ∃ o c dp,
      specExtracted doc.fields "orderNumber" o ∧
      specExtracted doc.fields "createdAt" c ∧
      specExtracted doc.fields "datePosted" dp ∧
      mapIndex [("name", JSON.str docOrderW.name),
                ("fields", fieldsToJSON docOrderW.fields),
                ("combinedField", JSON.str "I001 - ON1 -  - DP1")] "combinedField" =
        JSON.str ("I001" ++ " - " ++ o ++ " - " ++ c ++ " - " ++ dp) := by
  have h := @c3_combined_field "I001" [docOrderW]
    [[("name", JSON.str docOrderW.name),
      ("fields", fieldsToJSON docOrderW.fields),
      ("combinedField", JSON.str "I001 - ON1 -  - DP1")]] rfl
  exact h _ (List.mem_singleton.mpr rfl)

/-! ## C4 -/

/-- Shape of a successful per-storeOrder step: the output map holds exactly
combinedField, the entry's name value and the entry's fields value. -/
theorem processStoreOrder_shape {nm : JSON} {fields op : List (String × JSON)}
    {so : JSON} {out : List (String × JSON)}
    (h : processStoreOrder nm fields op so = some out) :
    ∃ cf, out = [("combinedField", JSON.str cf), ("name", nm), ("fields", JSON.obj fields)] := by
  simp only [processStoreOrder, Option.bind_eq_bind, Option.bind_eq_some,
    Option.pure_def, Option.some_inj] at h
  obtain ⟨o1, h1, o2, h2, o3, h3, o4, h4, o5, h5, o6, h6, o7, h7, hout⟩ := h
  exact ⟨_, hout.symm⟩

/-- Shape of all outputs of the inner /dead-letters-specific loop. -/
theorem processStoreOrders_shape {nm : JSON} {fields op : List (String × JSON)} :
    ∀ {sos : List JSON} {outs : List (List (String × JSON))},
      processStoreOrders nm fields op sos = some outs →
      ∀ out ∈ outs, ∃ cf,
        out = [("combinedField", JSON.str cf), ("name", nm), ("fields", JSON.obj fields)] := by
  intro sos
  induction sos with
  | nil =>
      intro outs h out hm
      simp only [processStoreOrders, Option.some_inj] at h
      subst h
      simp at hm
  | cons so rest ih =>
      intro outs h out hm
      simp only [processStoreOrders, Option.bind_eq_bind, Option.bind_eq_some,
        Option.pure_def, Option.some_inj] at h
      obtain ⟨e, he, os, hos, houts⟩ := h
      subst houts
      rcases List.mem_cons.mp hm with rfl | hm2
      · exact processStoreOrder_shape he
      · exact ih hos out hm2

/-- Shape of all outputs of a successful per-entry /dead-letters-specific
step: each emitted map echoes the entry's name and fields values and adds
only combinedField. -/
theorem processDeadLetterEntry_shape {entry : List (String × JSON)}
    {outs : List (List (String × JSON))}
    (h : processDeadLetterEntry entry = some outs) :
    ∀ out ∈ outs, ∃ fl cf, mapIndex entry "fields" = JSON.obj fl ∧
      out = [("combinedField", JSON.str cf), ("name", mapIndex entry "name"),
             ("fields", JSON.obj fl)] := by
  intro out hm
  simp only [processDeadLetterEntry, Option.bind_eq_bind, Option.bind_eq_some] at h
  obtain ⟨fl, hfl, op, hop, sow, hsow, soa, hsoa, sos, hsos, hloop⟩ := h
  obtain ⟨cf, hout⟩ := processStoreOrders_shape hloop out hm
  exact ⟨fl, cf, asObj_inv hfl, hout⟩

/-- Every output entry of the /dead-letters-specific loop comes from a
fetched entry whose per-entry step succeeded. -/
theorem processDeadLetters_mem :
    ∀ {entries outs : List (List (String × JSON))},
      processDeadLetters entries = some outs →
      ∀ out ∈ outs, ∃ entry ∈ entries, ∃ lst,
        processDeadLetterEntry entry = some lst ∧ out ∈ lst := by
  intro entries
  induction entries with
  | nil =>
      intro outs h out hm
      simp only [processDeadLetters, Option.some_inj] at h
      subst h
      simp at hm
  | cons entry rest ih =>
      intro outs h out hm
      simp only [processDeadLetters, Option.bind_eq_bind, Option.bind_eq_some,
        Option.pure_def, Option.some_inj] at h
      obtain ⟨os, hos, more, hmore, houts⟩ := h
      subst houts
      rcases List.mem_append.mp hm with hm2 | hm2
      · exact ⟨entry, List.mem_cons_self entry rest, os, hos, hm2⟩
      · obtain ⟨en, hen, lst, hlst, hol⟩ := ih hmore out hm2
        exact ⟨en, List.mem_cons_of_mem entry hen, lst, hlst, hol⟩

/-- C4: the processing of both handlers echoes the fetched document
unchanged — every emitted output entry carries exactly the document's name
value, the document's fields value as fetched, and the added combinedField
key, and nothing else. -/
theorem c4_frame_echo :
    (∀ (sub : String) (docs : List FirestoreDocument) (outs : List (List (String × JSON))),
      processLatestOrders sub docs = some outs →
      ∀ out ∈ outs, ∃ doc ∈ docs, ∃ cf,
        out = [("name", JSON.str doc.name), ("fields", fieldsToJSON doc.fields),
               ("combinedField", JSON.str cf)]) ∧
    (∀ (entries outs : List (List (String × JSON))),
      processDeadLetters entries = some outs →
      ∀ out ∈ outs, ∃ entry ∈ entries, ∃ fl cf,
        mapIndex entry "fields" = JSON.obj fl ∧
        out = [("combinedField", JSON.str cf), ("name", mapIndex entry "name"),
               ("fields", JSON.obj fl)]) := by
  constructor
  · intro sub docs outs h out hm
    obtain ⟨doc, hdoc, hde⟩ := processLatestOrders_mem h out hm
    obtain ⟨o, c, dp, _, _, _, hout⟩ := processLatestOrdersDoc_eq hde
    exact ⟨doc, hdoc, _, hout⟩
  · intro entries outs h out hm
    obtain ⟨entry, hen, lst, hlst, hol⟩ := processDeadLetters_mem h out hm
    obtain ⟨fl, cf, hfl, hout⟩ := processDeadLetterEntry_shape hlst out hol
    exact ⟨entry, hen, fl, cf, hfl, hout⟩

/-- C4 witness: concrete instances of both frame conjuncts. -/
theorem c4_frame_echo_witness :
    (∃ doc ∈ [docOrderW], ∃ cf,
      [("name", JSON.str docOrderW.name), ("fields", fieldsToJSON docOrderW.fields),
       ("combinedField", JSON.str "I001 - ON1 -  - DP1")] =
        [("name", JSON.str doc.name), ("fields", fieldsToJSON doc.fields),
         ("combinedField", JSON.str cf)]) ∧
    (∃ entry ∈ [deadLetterEntryW], ∃ fl cf,
      mapIndex entry "fields" = JSON.obj fl ∧
      deadLetterOutW =
        [("combinedField", JSON.str cf), ("name", mapIndex entry "name"),
         ("fields", JSON.obj fl)]) := by
  constructor
  · have h := c4_frame_echo.1 "I001" [docOrderW]
      [[("name", JSON.str docOrderW.name), ("fields", fieldsToJSON docOrderW.fields),
        ("combinedField", JSON.str "I001 - ON1 -  - DP1")]] rfl
    exact h _ (List.mem_singleton.mpr rfl)
  · have h := c4_frame_echo.2 [deadLetterEntryW] [deadLetterOutW] rfl
    exact h _ (List.mem_singleton.mpr rfl)

/-! ## C10 -/

/-- The result-building loop keeps exactly the documents with a non-nil
Fields map, in order. -/
theorem specificDocuments_filter_map (s : String) :
    ∀ docs : List FirestoreDocument,
      specificDocuments s docs =
        (docs.filter (fun doc => doc.fields.isSome)).map
          (fun doc => [("name", JSON.str doc.name), ("fields", JSON.obj (doc.fields.getD [])),
                       ("subCategory", JSON.str s)]) := by
  intro docs
  induction docs with
  | nil => rfl
  | cons doc rest ih =>
      cases hf : doc.fields with
      | none => simp [specificDocuments, List.filter_cons, hf, ih]
      | some fl => simp [specificDocuments, List.filter_cons, hf, ih]

/-- Every entry the result-building loop emits comes from a document with a
non-nil Fields map. -/
theorem specificDocuments_mem {s : String} :
    ∀ {docs : List FirestoreDocument} {entry : List (String × JSON)},
      entry ∈ specificDocuments s docs →
      ∃ (doc : FirestoreDocument) (fl : List (String × JSON)), doc.fields = some fl ∧
        entry = [("name", JSON.str doc.name), ("fields", JSON.obj fl),
                 ("subCategory", JSON.str s)] := by
  intro docs
  induction docs with
  | nil => intro entry hm; simp [specificDocuments] at hm
  | cons doc rest ih =>
      intro entry hm
      cases hf : doc.fields with
      | none =>
          simp only [specificDocuments, hf] at hm
          exact ih hm
      | some fl =>
          simp only [specificDocuments, hf] at hm
          rcases List.mem_cons.mp hm with rfl | hm2
          · exact ⟨doc, fl, hf, rfl⟩
          · exact ih hm2

/-- C10: a successful FetchSpecificDocumentsFromFirestore returns exactly
the fetched documents whose Fields map is non-nil, in their original order,
each wrapped with a non-nil "fields" map and a "subCategory" value equal to
the subCollection argument; nil-Fields query results are omitted. -/
theorem c10_specific_documents_shape :
    ∀ (env : Interaction (List FirestoreDocument)) (p d pc s : String)
      (items : List FirestoreDocument) (t : String),
      env.build = Except.ok () → env.token = Except.ok t →
      env.response = DoOutcome.ok items →
      (FetchSpecificDocumentsFromFirestore env p d pc s).2 =
        Except.ok (specificDocuments s items) ∧
      specificDocuments s items =
        (items.filter (fun doc => doc.fields.isSome)).map
          (fun doc => [("name", JSON.str doc.name), ("fields", JSON.obj (doc.fields.getD [])),
                       ("subCategory", JSON.str s)]) ∧
      ∀ entry ∈ specificDocuments s items,
        mapIndex entry "subCategory" = JSON.str s ∧
        ∃ fl, mapIndex entry "fields" = JSON.obj fl := by
  intro env p d pc s items t hb ht hr
  refine ⟨?_, specificDocuments_filter_map s items, ?_⟩
  · rcases env with ⟨b, t', r⟩
    simp only at hb ht hr
    subst hb; subst ht; subst hr
    rfl
  · intro entry hm
    obtain ⟨doc, fl, hf, rfl⟩ := specificDocuments_mem hm
    exact ⟨rfl, fl, rfl⟩

/-- C10 witness: with a concrete environment returning one document with
fields and one with a nil Fields map, the fetch returns the wrapped
filtered list. -/
theorem c10_specific_documents_shape_witness :
    (FetchSpecificDocumentsFromFirestore envSpecW "p" "d" "dead-letters/NANALL"
        "2024-12-16").2 =
      Except.ok (specificDocuments "2024-12-16" [docR1, docR2]) :=
  (c10_specific_documents_shape envSpecW "p" "d" "dead-letters/NANALL" "2024-12-16"
    [docR1, docR2] "tokW" rfl rfl rfl).1

/-! ## C8 -/

/-- When the token provider grants the same token at every iteration, every
request the pagination loop issues carries it as the bearer. -/
theorem fetchDocsLoop_bearer {env : Nat → Interaction Page} {url t : String}
    (htok : ∀ i, (env i).token = Except.ok t) :
    ∀ (fuel i : Nat) (tok : String) (acc : List FirestoreDocument)
      (r : List IssuedRequest × Except String (List FirestoreDocument)),
      fetchDocsLoop env url fuel i tok acc = some r → ∀ req ∈ r.1, req.bearer = t := by
  intro fuel
  induction fuel with
  | zero => intro i tok acc r h; simp [fetchDocsLoop] at h
  | succ f ih =>
      intro i tok acc r h req hm
      simp only [fetchDocsLoop, htok i] at h
      cases hb : (env i).build with
      | error e =>
          simp only [hb, Option.some_inj] at h
          subst h
          simp at hm
      | ok u =>
          simp only [hb] at h
          cases hr : (env i).response with
          | transportError e =>
              simp only [hr, Option.some_inj] at h
              subst h
              simp only [List.mem_singleton] at hm
              subst hm
              rfl
          | httpError st =>
              simp only [hr, Option.some_inj] at h
              subst h
              simp only [List.mem_singleton] at hm
              subst hm
              rfl
          | decodeError e =>
              simp only [hr, Option.some_inj] at h
              subst h
              simp only [List.mem_singleton] at hm
              subst hm
              rfl
          | ok page =>
              simp only [hr] at h
              by_cases hp : page.nextPageToken = ""
              · rw [if_pos hp] at h
                simp only [Option.some_inj] at h
                subst h
                simp only [List.mem_singleton] at hm
                subst hm
                rfl
              · rw [if_neg hp] at h
                cases hrec : fetchDocsLoop env url f (i + 1) page.nextPageToken
                    (acc ++ page.documents) with
                | none => rw [hrec] at h; simp at h
                | some r2 =>
                    rw [hrec] at h
                    rcases r2 with ⟨reqs, res⟩
                    simp only [Option.some_inj] at h
                    subst h
                    rcases List.mem_cons.mp hm with rfl | hm2
                    · rfl
                    · exact ih (i + 1) page.nextPageToken (acc ++ page.documents)
                        (reqs, res) hrec req hm2

/-- C8: every fetch obtains an access token before issuing its request and
attaches it as the Authorization Bearer header; when token acquisition
fails the fetch returns an error without handing any request to the
transport. -/
theorem c8_token_before_request :
    (∀ (env : Interaction (List FirestoreDocument)) (p d s e : String),
      env.token = Except.error e →
      (FetchDocumentsFromFirestoreWithSubcollection env p d s).1 = [] ∧
      ∃ msg, (FetchDocumentsFromFirestoreWithSubcollection env p d s).2 =
        Except.error msg) ∧
    (∀ (env : Interaction (List FirestoreDocument)) (p d pc s e : String),
      env.token = Except.error e →
      (FetchSpecificDocumentsFromFirestore env p d pc s).1 = [] ∧
      ∃ msg, (FetchSpecificDocumentsFromFirestore env p d pc s).2 = Except.error msg) ∧
    (∀ (env : Interaction (List FirestoreDocument)) (p d s t : String),
      env.token = Except.ok t →
      ∀ req ∈ (FetchDocumentsFromFirestoreWithSubcollection env p d s).1,
        req.bearer = t) ∧
    (∀ (env : Interaction (List FirestoreDocument)) (p d pc s t : String),
      env.token = Except.ok t →
      ∀ req ∈ (FetchSpecificDocumentsFromFirestore env p d pc s).1, req.bearer = t) ∧
    (∀ (env : Nat → Interaction Page) (fuel : Nat) (p d c e : String),
      0 < fuel → (env 0).token = Except.error e →
      FetchDocumentsFromFirestore env fuel p d c =
        some ([], Except.error ("failed to get access token: " ++ e))) ∧
    (∀ (env : Nat → Interaction Page) (fuel : Nat) (p d c t : String)
       (r : List IssuedRequest × Except String (List FirestoreDocument)),
      (∀ i, (env i).token = Except.ok t) →
      FetchDocumentsFromFirestore env fuel p d c = some r →
      ∀ req ∈ r.1, req.bearer = t) := by
  refine ⟨?_, ?_, ?_, ?_, ?_, ?_⟩
  · intro env p d s e ht
    rcases env with ⟨b, t', r⟩
    simp only at ht
    subst ht
    cases b with
    | error e2 => exact ⟨rfl, _, rfl⟩
    | ok u => exact ⟨rfl, _, rfl⟩
  · intro env p d pc s e ht
    rcases env with ⟨b, t', r⟩
    simp only at ht
    subst ht
    cases b with
    | error e2 => exact ⟨rfl, _, rfl⟩
    | ok u => exact ⟨rfl, _, rfl⟩
  · intro env p d s t ht req hm
    rcases env with ⟨b, t', r⟩
    simp only at ht
    subst ht
    cases b with
    | error e2 => simp [FetchDocumentsFromFirestoreWithSubcollection] at hm
    | ok u =>
        cases r <;> simp [FetchDocumentsFromFirestoreWithSubcollection] at hm <;>
          (subst hm; rfl)
  · intro env p d pc s t ht req hm
    rcases env with ⟨b, t', r⟩
    simp only at ht
    subst ht
    cases b with
    | error e2 => simp [FetchSpecificDocumentsFromFirestore] at hm
    | ok u =>
        cases r <;> simp [FetchSpecificDocumentsFromFirestore] at hm <;>
          (subst hm; rfl)
  · intro env fuel p d c e hfuel ht
    cases fuel with
    | zero => omega
    | succ f =>
        unfold FetchDocumentsFromFirestore
        simp only [fetchDocsLoop, ht]
  · intro env fuel p d c t r htok h
    exact fetchDocsLoop_bearer htok fuel 0 "" [] r h

/-- C8 witness: with a failing token provider the runQuery fetch issues no
request and errors. -/
theorem c8_token_before_request_witness :
    (FetchDocumentsFromFirestoreWithSubcollection envTokenFailW "p" "d" "I001").1 = [] ∧
    ∃ msg, (FetchDocumentsFromFirestoreWithSubcollection envTokenFailW "p" "d" "I001").2 =
      Except.error msg :=
  c8_token_before_request.1 envTokenFailW "p" "d" "I001" "no creds" rfl

/-! ## C2 -/

/-- Helper for the pagination claim: running the loop from index i against
an environment whose next pages.length interactions succeed with the given
pages — every page before the last carrying a non-empty nextPageToken and
the last an empty one — requests the first page with the carried-over token
and each further page with the previous page's nextPageToken as the
pageToken query parameter, stops at the empty token, and returns the
accumulated documents in page order. -/
theorem fetchDocsLoop_pages (env : Nat → Interaction Page) (tks : Nat → String) (url : String) :
    ∀ (pages : List Page) (i fuel : Nat) (tok : String) (acc : List FirestoreDocument),
      pages ≠ [] →
      (∀ j, j < pages.length →
        env (i + j) = okInteraction (tks (i + j)) (pages.getD j ⟨[], ""⟩)) →
      (∀ p ∈ pages.dropLast, p.nextPageToken ≠ "") →
      (pages.getD (pages.length - 1) ⟨[], ""⟩).nextPageToken = "" →
      pages.length ≤ fuel →
      (fetchDocsLoop env url fuel i tok acc).map (fun r => (r.1.map IssuedRequest.url, r.2)) =
        some ((if tok = "" then url else url ++ "?pageToken=" ++ tok) ::
                pages.dropLast.map (fun p => url ++ "?pageToken=" ++ p.nextPageToken),
              Except.ok (acc ++ (pages.map Page.documents).flatten)) := by
  intro pages
  induction pages with
  | nil => intro i fuel tok acc hne; exact absurd rfl hne
  | cons p rest ih =>
      intro i fuel tok acc _ henv hmid hlast hfuel
      cases fuel with
      | zero => simp at hfuel
      | succ f =>
          have henv0 : env i = okInteraction (tks i) p := by
            have h0 := henv 0 (by simp)
            simpa using h0
          simp only [fetchDocsLoop, henv0, okInteraction]
          cases rest with
          | nil =>
              have hp : p.nextPageToken = "" := by simpa using hlast
              rw [if_pos hp]
              simp [List.dropLast]
          | cons q rest2 =>
              have hp : p.nextPageToken ≠ "" :=
                hmid p (by rw [List.dropLast_cons₂]; exact List.mem_cons_self p _)
              rw [if_neg hp]
              have hrec := ih (i + 1) f p.nextPageToken (acc ++ p.documents)
                (by simp)
                (fun j hj => by
                  have h2 := henv (j + 1) (by simpa using Nat.succ_lt_succ hj)
                  have e1 : i + (j + 1) = i + 1 + j := by omega
                  rw [e1] at h2
                  simpa [List.getD_cons_succ] using h2)
                (fun p2 hp2 => hmid p2 (by
                  rw [List.dropLast_cons₂]; exact List.mem_cons_of_mem p hp2))
                (by simpa [Nat.succ_sub_one] using hlast)
                (by simp only [List.length_cons] at hfuel ⊢; omega)
              cases hcall : fetchDocsLoop env url f (i + 1) p.nextPageToken
                  (acc ++ p.documents) with
              | none => rw [hcall] at hrec; simp at hrec
              | some r2 =>
                  rcases r2 with ⟨reqs, res⟩
                  rw [hcall] at hrec
                  simp only [Option.map_some', Option.some_inj, Prod.mk.injEq] at hrec
                  rw [if_neg hp] at hrec
                  simp [hrec.1, hrec.2, List.dropLast_cons₂, List.append_assoc]

/-- C2: FetchDocumentsFromFirestore handles pagination — for every sequence
of remote response pages it requests successive pages by passing the
previous response's nextPageToken as the pageToken query parameter (the
first request carrying none), stops exactly at the first response with an
empty nextPageToken, and returns the concatenation of all pages' Documents
arrays in page order. -/
theorem c2_pagination (env : Nat → Interaction Page) (tks : Nat → String)
    (pages : List Page) (fuel : Nat) (projectID databaseID collection : String)
    (hne : pages ≠ [])
    (henv : ∀ j, j < pages.length →
      env j = okInteraction (tks j) (pages.getD j ⟨[], ""⟩))
    (hmid : ∀ p ∈ pages.dropLast, p.nextPageToken ≠ "")
    (hlast : (pages.getD (pages.length - 1) ⟨[], ""⟩).nextPageToken = "")
    (hfuel : pages.length ≤ fuel) :
    (FetchDocumentsFromFirestore env fuel projectID databaseID collection).map
        (fun r => (r.1.map IssuedRequest.url, r.2)) =
      some (documentsURL projectID databaseID collection ::
              pages.dropLast.map
                (fun p => documentsURL projectID databaseID collection ++ "?pageToken=" ++
                  p.nextPageToken),
            Except.ok ((pages.map Page.documents).flatten)) := by
  have h := fetchDocsLoop_pages env tks (documentsURL projectID databaseID collection)
    pages 0 fuel "" [] hne (by simpa using henv) hmid hlast hfuel
  simpa using h

/-- C2 witness: a concrete two-page run requests the base URL then the URL
with the first page's token, and concatenates both pages' documents. -/
theorem c2_pagination_witness :
    (FetchDocumentsFromFirestore envPagesW 2 "p" "d" "restaurants").map
        (fun r => (r.1.map IssuedRequest.url, r.2)) =
      some (documentsURL "p" "d" "restaurants" ::
              [pageW1, pageW2].dropLast.map
                (fun p => documentsURL "p" "d" "restaurants" ++ "?pageToken=" ++
                  p.nextPageToken),
            Except.ok (([pageW1, pageW2].map Page.documents).flatten)) := by
  apply c2_pagination envPagesW (fun _ => "tokW") [pageW1, pageW2] 2 "p" "d" "restaurants"
  · simp
  · intro j hj
    simp only [List.length_cons, List.length_nil] at hj
    interval_cases j <;> rfl
  · intro p hp
    simp [List.dropLast] at hp
    subst hp
    decide
  · rfl
  · decide

/-! ## C7 -/

/-- Helper for the no-retry claim: after any number of successful pages,
the first failing interaction ends the loop with the corresponding error,
having issued exactly one request per successful page plus at most one for
the failing iteration; interactions after the failure are never consulted. -/
theorem fetchDocsLoop_halt (env : Nat → Interaction Page) (tks : Nat → String) (url : String) :
    ∀ (pages : List Page) (i fuel : Nat) (tok : String) (acc : List FirestoreDocument)
      (msg : String) (cnt : Nat),
      (∀ j, j < pages.length →
        env (i + j) = okInteraction (tks (i + j)) (pages.getD j ⟨[], ""⟩)) →
      (∀ p ∈ pages, p.nextPageToken ≠ "") →
      failureResult (env (i + pages.length)) = some (msg, cnt) →
      pages.length + 1 ≤ fuel →
      (fetchDocsLoop env url fuel i tok acc).map (fun r => (r.1.length, r.2)) =
        some (pages.length + cnt, Except.error msg) := by
  intro pages
  induction pages with
  | nil =>
      intro i fuel tok acc msg cnt _ _ hbad hfuel
      cases fuel with
      | zero => simp at hfuel
      | succ f =>
          simp only [List.length_nil, Nat.add_zero] at hbad ⊢
          simp only [fetchDocsLoop]
          unfold failureResult at hbad
          cases ht : (env i).token with
          | error e =>
              rw [ht] at hbad
              simp only [Option.some_inj, Prod.mk.injEq] at hbad
              simp [ht, hbad.1, hbad.2]
          | ok t =>
              rw [ht] at hbad
              cases hb : (env i).build with
              | error e =>
                  rw [hb] at hbad
                  simp only [Option.some_inj, Prod.mk.injEq] at hbad
                  simp [ht, hb, hbad.1, hbad.2]
              | ok u =>
                  rw [hb] at hbad
                  cases hr : (env i).response with
                  | transportError e =>
                      rw [hr] at hbad
                      simp only [Option.some_inj, Prod.mk.injEq] at hbad
                      simp [ht, hb, hr, hbad.1, hbad.2]
                  | httpError st =>
                      rw [hr] at hbad
                      simp only [Option.some_inj, Prod.mk.injEq] at hbad
                      simp [ht, hb, hr, hbad.1, hbad.2]
                  | decodeError e =>
                      rw [hr] at hbad
                      simp only [Option.some_inj, Prod.mk.injEq] at hbad
                      simp [ht, hb, hr, hbad.1, hbad.2]
                  | ok page =>
                      rw [hr] at hbad
                      simp at hbad
  | cons p rest ih =>
      intro i fuel tok acc msg cnt henv hmid hbad hfuel
      cases fuel with
      | zero => simp at hfuel
      | succ f =>
          have henv0 : env i = okInteraction (tks i) p := by
            have h0 := henv 0 (by simp)
            simpa using h0
          have hp : p.nextPageToken ≠ "" := hmid p (List.mem_cons_self p rest)
          simp only [fetchDocsLoop, henv0, okInteraction]
          rw [if_neg hp]
          have hrec := ih (i + 1) f p.nextPageToken (acc ++ p.documents) msg cnt
            (fun j hj => by
              have h2 := henv (j + 1) (by simpa using Nat.succ_lt_succ hj)
              have e1 : i + (j + 1) = i + 1 + j := by omega
              rw [e1] at h2
              simpa [List.getD_cons_succ] using h2)
            (fun p2 hp2 => hmid p2 (List.mem_cons_of_mem p hp2))
            (by
              have e1 : i + (p :: rest).length = i + 1 + rest.length := by
                simp only [List.length_cons]; omega
              rw [e1] at hbad
              exact hbad)
            (by simp only [List.length_cons] at hfuel ⊢; omega)
          cases hcall : fetchDocsLoop env url f (i + 1) p.nextPageToken
              (acc ++ p.documents) with
          | none => rw [hcall] at hrec; simp at hrec
          | some r2 =>
              rcases r2 with ⟨reqs, res⟩
              rw [hcall] at hrec
              simp only [Option.map_some', Option.some_inj, Prod.mk.injEq] at hrec
              simp only [Option.map_some', Option.some_inj, Prod.mk.injEq,
                List.length_cons, hrec.2]
              refine ⟨by rw [hrec.1]; omega, ?_⟩
              trivial

/-- C7: no fetch retries.  The two runQuery fetches hand at most one
request to the transport in every environment; the pagination loop, after
any run of successful pages, stops at the first failing interaction (any of
the five failure modes) having issued exactly one request per page received
plus at most one for the failing iteration; and a handler whose fetch
errors responds 500 with that error message and returns no documents. -/
theorem c7_no_retries :
    (∀ (env : Interaction (List FirestoreDocument)) (p d s : String),
      ((FetchDocumentsFromFirestoreWithSubcollection env p d s).1).length ≤ 1) ∧
    (∀ (env : Interaction (List FirestoreDocument)) (p d pc s : String),
      ((FetchSpecificDocumentsFromFirestore env p d pc s).1).length ≤ 1) ∧
    (∀ (env : Nat → Interaction Page) (tks : Nat → String) (pages : List Page)
       (fuel : Nat) (p d c : String) (msg : String) (cnt : Nat),
      (∀ j, j < pages.length →
        env j = okInteraction (tks j) (pages.getD j ⟨[], ""⟩)) →
      (∀ pg ∈ pages, pg.nextPageToken ≠ "") →
      failureResult (env pages.length) = some (msg, cnt) →
      pages.length + 1 ≤ fuel →
      (FetchDocumentsFromFirestore env fuel p d c).map (fun r => (r.1.length, r.2)) =
        some (pages.length + cnt, Except.error msg)) ∧
    (∀ (env : Interaction (List FirestoreDocument)) (p d s : String)
       (reqs : List IssuedRequest) (e : String), s ≠ "" →
      FetchDocumentsFromFirestoreWithSubcollection env p d s = (reqs, Except.error e) →
      LatestOrdersHandler env p d s =
        (reqs, some ⟨500, JSON.obj [("error", JSON.str e)]⟩)) ∧
    (∀ (env : Interaction (List FirestoreDocument)) (p d s : String)
       (reqs : List IssuedRequest) (e : String), s ≠ "" →
      FetchSpecificDocumentsFromFirestore env p d "dead-letters/NANALL" s =
        (reqs, Except.error e) →
      DeadLettersHandler env p d s =
        (reqs, some ⟨500, JSON.obj [("error", JSON.str e)]⟩)) := by
  refine ⟨?_, ?_, ?_, ?_, ?_⟩
  · intro env p d s
    rcases env with ⟨b, t, r⟩
    cases b with
    | error e => simp [FetchDocumentsFromFirestoreWithSubcollection]
    | ok u =>
        cases t with
        | error e => simp [FetchDocumentsFromFirestoreWithSubcollection]
        | ok tok => cases r <;> simp [FetchDocumentsFromFirestoreWithSubcollection]
  · intro env p d pc s
    rcases env with ⟨b, t, r⟩
    cases b with
    | error e => simp [FetchSpecificDocumentsFromFirestore]
    | ok u =>
        cases t with
        | error e => simp [FetchSpecificDocumentsFromFirestore]
        | ok tok => cases r <;> simp [FetchSpecificDocumentsFromFirestore]
  · intro env tks pages fuel p d c msg cnt henv hmid hbad hfuel
    have h := fetchDocsLoop_halt env tks (documentsURL p d c) pages 0 fuel "" []
      msg cnt (by simpa using henv) hmid (by simpa using hbad) hfuel
    simpa using h
  · intro env p d s reqs e hs hf
    simp only [LatestOrdersHandler, if_neg hs, hf]
  · intro env p d s reqs e hs hf
    simp only [DeadLettersHandler, if_neg hs, hf]

/-- C7 witness: a concrete run with one successful page and a transport
failure on the second interaction issues exactly two requests and errors. -/
theorem c7_no_retries_witness :
    (FetchDocumentsFromFirestore envPagesFailW 2 "p" "d" "restaurants").map
        (fun r => (r.1.length, r.2)) =
      some ([pageW1].length + 1, Except.error "failed to make request: EOF") := by
  apply c7_no_retries.2.2.1 envPagesFailW (fun _ => "tokW") [pageW1] 2 "p" "d" "restaurants"
  · intro j hj
    simp only [List.length_cons, List.length_nil] at hj
    interval_cases j
    rfl
  · intro pg hpg
    simp at hpg
    subst hpg
    decide
  · rfl
  · decide

/-! ## C6 -/

/-- Every request the with-subcollection runQuery fetch issues is the
runQuery POST. -/
theorem fetchWithSub_requests :
    ∀ (env : Interaction (List FirestoreDocument)) (p d s : String),
      ∀ req ∈ (FetchDocumentsFromFirestoreWithSubcollection env p d s).1,
        req.method = "POST" ∧ req.url = runQueryURL p d ∧ req.body = runQueryPayload s := by
  intro env p d s req hm
  rcases env with ⟨b, t, r⟩
  cases b with
  | error e => simp [FetchDocumentsFromFirestoreWithSubcollection] at hm
  | ok u =>
    cases t with
    | error e => simp [FetchDocumentsFromFirestoreWithSubcollection] at hm
    | ok tok =>
        cases r <;> simp [FetchDocumentsFromFirestoreWithSubcollection] at hm <;>
          (subst hm; exact ⟨rfl, rfl, rfl⟩)

/-- Every request the specific runQuery fetch issues is the runQuery
POST. -/
theorem fetchSpecific_requests :
    ∀ (env : Interaction (List FirestoreDocument)) (p d pc s : String),
      ∀ req ∈ (FetchSpecificDocumentsFromFirestore env p d pc s).1,
        req.method = "POST" ∧ req.url = runQueryURL p d ∧ req.body = runQueryPayload s := by
  intro env p d pc s req hm
  rcases env with ⟨b, t, r⟩
  cases b with
  | error e => simp [FetchSpecificDocumentsFromFirestore] at hm
  | ok u =>
    cases t with
    | error e => simp [FetchSpecificDocumentsFromFirestore] at hm
    | ok tok =>
        cases r <;> simp [FetchSpecificDocumentsFromFirestore] at hm <;>
          (subst hm; exact ⟨rfl, rfl, rfl⟩)

/-- When the subCollection parameter is non-empty, the /latest-orders
handler issues exactly the requests of its fetch. -/
theorem latestOrders_requests_eq {env : Interaction (List FirestoreDocument)}
    {p d s : String} (hs : s ≠ "") :
    (LatestOrdersHandler env p d s).1 =
      (FetchDocumentsFromFirestoreWithSubcollection env p d s).1 := by
  simp only [LatestOrdersHandler, if_neg hs]
  rcases hf : FetchDocumentsFromFirestoreWithSubcollection env p d s with ⟨reqs, res⟩
  cases res with
  | error e => simp
  | ok docs => cases hp : processLatestOrders s docs <;> simp [hp]

/-- When the subCollection parameter is non-empty, the
/dead-letters-specific handler issues exactly the requests of its fetch. -/
theorem deadLetters_requests_eq {env : Interaction (List FirestoreDocument)}
    {p d s : String} (hs : s ≠ "") :
    (DeadLettersHandler env p d s).1 =
      (FetchSpecificDocumentsFromFirestore env p d "dead-letters/NANALL" s).1 := by
  simp only [DeadLettersHandler, if_neg hs]
  rcases hf : FetchSpecificDocumentsFromFirestore env p d "dead-letters/NANALL" s
    with ⟨reqs, res⟩
  cases res with
  | error e => simp
  | ok docs => cases hp : processDeadLetters docs <;> simp [hp]

/-- Every request the pagination loop issues is a GET of the documents URL,
possibly with a pageToken query parameter, and carries no body. -/
theorem fetchDocsLoop_urls {env : Nat → Interaction Page} {url : String} :
    ∀ (fuel i : Nat) (tok : String) (acc : List FirestoreDocument)
      (r : List IssuedRequest × Except String (List FirestoreDocument)),
      fetchDocsLoop env url fuel i tok acc = some r →
      ∀ req ∈ r.1, req.method = "GET" ∧ req.body = "" ∧
        (req.url = url ∨ ∃ t, req.url = url ++ "?pageToken=" ++ t) := by
  intro fuel
  induction fuel with
  | zero => intro i tok acc r h; simp [fetchDocsLoop] at h
  | succ f ih =>
      intro i tok acc r h req hm
      have hfirst : ∀ u : IssuedRequest,
          u.url = (if tok = "" then url else url ++ "?pageToken=" ++ tok) →
          u.url = url ∨ ∃ t, u.url = url ++ "?pageToken=" ++ t := by
        intro u hu
        by_cases htk : tok = ""
        · rw [if_pos htk] at hu; exact Or.inl hu
        · rw [if_neg htk] at hu; exact Or.inr ⟨tok, hu⟩
      simp only [fetchDocsLoop] at h
      cases ht : (env i).token with
      | error e =>
          simp only [ht, Option.some_inj] at h
          subst h
          simp at hm
      | ok t =>
          simp only [ht] at h
          cases hb : (env i).build with
          | error e =>
              simp only [hb, Option.some_inj] at h
              subst h
              simp at hm
          | ok u =>
              simp only [hb] at h
              cases hr : (env i).response with
              | transportError e =>
                  simp only [hr, Option.some_inj] at h
                  subst h
                  simp only [List.mem_singleton] at hm
                  subst hm
                  exact ⟨rfl, rfl, hfirst _ rfl⟩
              | httpError st =>
                  simp only [hr, Option.some_inj] at h
                  subst h
                  simp only [List.mem_singleton] at hm
                  subst hm
                  exact ⟨rfl, rfl, hfirst _ rfl⟩
              | decodeError e =>
                  simp only [hr, Option.some_inj] at h
                  subst h
                  simp only [List.mem_singleton] at hm
                  subst hm
                  exact ⟨rfl, rfl, hfirst _ rfl⟩
              | ok page =>
                  simp only [hr] at h
                  by_cases hp : page.nextPageToken = ""
                  · rw [if_pos hp] at h
                    simp only [Option.some_inj] at h
                    subst h
                    simp only [List.mem_singleton] at hm
                    subst hm
                    exact ⟨rfl, rfl, hfirst _ rfl⟩
                  · rw [if_neg hp] at h
                    cases hcall : fetchDocsLoop env url f (i + 1) page.nextPageToken
                        (acc ++ page.documents) with
                    | none => rw [hcall] at h; simp at h
                    | some r2 =>
                        rw [hcall] at h
                        rcases r2 with ⟨reqs, res⟩
                        simp only [Option.some_inj] at h
                        subst h
                        rcases List.mem_cons.mp hm with rfl | hm2
                        · exact ⟨rfl, rfl, hfirst _ rfl⟩
                        · exact ih (i + 1) page.nextPageToken (acc ++ page.documents)
                            (reqs, res) hcall req hm2

/-- C6: the server registers exactly the four fixed paths, each with the
GET method only, and every endpoint is read-only — the handlers are pure
functions of the request and the environment (the embedding carries no
mutable server state), and the only outbound operations any handler
performs are the documents GET (with optional pageToken) and the runQuery
POST. -/
theorem c6_routes_read_only :
    SetupRouter = [("GET", "/"), ("GET", "/restaurants-cache"), ("GET", "/latest-orders"),
                   ("GET", "/dead-letters-specific")] ∧
    (∀ r ∈ SetupRouter, r.1 = "GET") ∧
    HomeHandler.1 = [] ∧
    (∀ (env : Interaction (List FirestoreDocument)) (p d s : String),
      ∀ req ∈ (LatestOrdersHandler env p d s).1,
        req.method = "POST" ∧ req.url = runQueryURL p d ∧ req.body = runQueryPayload s) ∧
    (∀ (env : Interaction (List FirestoreDocument)) (p d s : String),
      ∀ req ∈ (DeadLettersHandler env p d s).1,
        req.method = "POST" ∧ req.url = runQueryURL p d ∧ req.body = runQueryPayload s) ∧
    (∀ (env : Nat → Interaction Page) (fuel : Nat) (p d : String)
       (r : List IssuedRequest × HttpReply),
      RestaurantsCacheHandler env fuel p d = some r →
      ∀ req ∈ r.1, req.method = "GET" ∧
        (req.url = documentsURL p d "restaurants" ∨
         ∃ t, req.url = documentsURL p d "restaurants" ++ "?pageToken=" ++ t)) := by
  refine ⟨rfl, by decide, rfl, ?_, ?_, ?_⟩
  · intro env p d s req hm
    by_cases hs : s = ""
    · subst hs; simp [LatestOrdersHandler] at hm
    · rw [latestOrders_requests_eq hs] at hm
      exact fetchWithSub_requests env p d s req hm
  · intro env p d s req hm
    by_cases hs : s = ""
    · subst hs; simp [DeadLettersHandler] at hm
    · rw [deadLetters_requests_eq hs] at hm
      exact fetchSpecific_requests env p d "dead-letters/NANALL" s req hm
  · intro env fuel p d r hr req hm
    unfold RestaurantsCacheHandler at hr
    cases hcall : FetchDocumentsFromFirestore env fuel p d "restaurants" with
    | none => rw [hcall] at hr; simp at hr
    | some r2 =>
        rcases r2 with ⟨reqs, res⟩
        rw [hcall] at hr
        have hreqs : r.1 = reqs := by
          cases res <;> simp only [Option.some_inj] at hr <;> rw [← hr]
        rw [hreqs] at hm
        have h := fetchDocsLoop_urls fuel 0 "" [] (reqs, res) hcall req hm
        exact ⟨h.1, h.2.2⟩

/-- C6 witness: the concrete request issued by /latest-orders under
envOrdersW is the runQuery POST. -/
theorem c6_routes_read_only_witness :
    reqW.method = "POST" ∧ reqW.url = runQueryURL "p" "d" ∧
      reqW.body = runQueryPayload "I001" :=
  c6_routes_read_only.2.2.2.1 envOrdersW "p" "d" "I001" reqW
    (show reqW ∈ [reqW] from List.mem_singleton.mpr rfl)

end Crossfire
